import Mathlib

/-!
Shallow embedding of `src/nozomi/helpers.py` (python-nozomi-post-downloader).

The module is a handful of pure string helpers: tag sanitization and
encoding, post-id parsing from URLs, and sharded path construction.
Python strings are modelled as Lean `String`s over their character lists;
only the ASCII behaviour of `str.lower`, `str.strip` and `int(...)` is
modelled (all identifiers and examples in the repository are ASCII).
Python exceptions are modelled with `Except`.
-/

namespace Nozomi

/-- Python `str.lower` (ASCII fragment), applied characterwise.
`Char.toLower` maps a code point in `65..90` to its value plus 32 and
fixes everything else, exactly Python's behaviour on ASCII input. -/
def pyLower (s : String) : String :=
  String.mk (s.data.map Char.toLower)

/-- ASCII whitespace recognized by Python `str.strip` and `int(...)`:
space, tab, newline, carriage return, vertical tab, form feed. -/
def isPyWhitespace (c : Char) : Bool :=
  c == ' ' || c == '\t' || c == '\n' || c == '\x0d' || c == '\x0b' || c == '\x0c'

/-- Python `str.strip()`: drop leading and trailing whitespace. -/
def pyStrip (s : String) : String :=
  String.mk (((s.data.dropWhile isPyWhitespace).reverse.dropWhile isPyWhitespace).reverse)

/-- `re.sub('[/#%]', '', s)` from `sanitize_tag`: delete every
slash, hash and percent character. -/
def removeSlashHashPercent (s : String) : String :=
  String.mk (s.data.filter (fun c => !(c == '/' || c == '#' || c == '%')))

/-- The two exception values of `nozomi.exceptions` that `helpers.py`
raises as `InvalidTagFormat`, distinguished by the message the source
constructs at each raise site. -/
inductive TagErr
  /-- `_validate_tag_sanitized`, empty-tag branch. -/
  | emptyTag (tag : String)
  /-- `_validate_tag_sanitized`, leading-dash branch. -/
  | invalidStart (tag : String)
  /-- `create_tag_filepath` re-raises with the fixed message
  `Tag must be sanitized before creating a filepath.` -/
  | notSanitized
  deriving DecidableEq, Repr

/-- The message string carried by each modelled `InvalidTagFormat`. -/
def TagErr.message : TagErr → String
  | .emptyTag tag => "The tag \x27" ++ tag ++ "\x27 is invalid. Cannot be empty."
  | .invalidStart tag =>
      "The tag \x27" ++ tag ++ "\x27 is invalid. Cannot begin with character \x27-\x27"
  | .notSanitized => "Tag must be sanitized before creating a filepath."

/-- `InvalidUrlFormat` raised by `parse_post_id`. -/
inductive UrlErr
  | invalidUrl (url : String)
  deriving DecidableEq, Repr

/-- `_validate_tag_sanitized`: `if not tag` raises on the empty string,
`if tag[0] == '-'` raises on a leading dash (`tag[0]` is the head of the
character list, reached only on nonempty input), otherwise the function
returns (`None` in Python, here `Unit`). -/
def validate_tag_sanitized (tag : String) : Except TagErr Unit :=
  if tag.data = [] then .error (.emptyTag tag)
  else if tag.data.head? = some '-' then .error (.invalidStart tag)
  else .ok ()

/-- `sanitize_tag`: lowercase, strip, delete `/#%`, then validate.
The `except Exception` branch of the source is unreachable (all the
operations above are total), so the model is the validated result. -/
def sanitize_tag (tag : String) : Except TagErr String :=
  match validate_tag_sanitized (removeSlashHashPercent (pyStrip (pyLower tag))) with
  | .error e => .error e
  | .ok _ => .ok (removeSlashHashPercent (pyStrip (pyLower tag)))

/-- Characters before the first occurrence of `.html` in a list, if
`.html` occurs at all (the non-greedy `([\s\S]*?)\.html` tail of the
search pattern in `parse_post_id`; `[\s\S]` matches every character). -/
def findDotHtml : List Char → Option (List Char)
  | [] => none
  | c :: rest =>
    if List.isPrefixOf ['.', 'h', 't', 'm', 'l'] (c :: rest) then some []
    else match findDotHtml rest with
      | some cap => some (c :: cap)
      | none => none

/-- `re.search(r"post\/([\s\S]*?)\.html", url)`: scan for the leftmost
position carrying `post/` followed (anywhere later) by `.html`; the
non-greedy capture is everything up to the first later `.html`. -/
def searchPostCapture : List Char → Option (List Char)
  | [] => none
  | c :: rest =>
    if List.isPrefixOf ['p', 'o', 's', 't', '/'] (c :: rest) then
      match findDotHtml (List.drop 4 rest) with
      | some cap => some cap
      | none => searchPostCapture rest
    else searchPostCapture rest

/-- Digit-run accumulator for Python `int(...)`: decimal digits with a
single underscore allowed between digits. `afterSep` records that the
previous character was an underscore (or that nothing was read yet), in
which case only a digit may follow. -/
def pyDigitsAux : List Char → Nat → Bool → Option Nat
  | [], acc, afterSep => if afterSep then none else some acc
  | c :: rest, acc, afterSep =>
    if c.isDigit then pyDigitsAux rest (acc * 10 + (c.toNat - 48)) false
    else if c == '_' && !afterSep then pyDigitsAux rest acc true
    else none

/-- Python `int(s)` for ASCII strings: strip whitespace, optional single
sign, then a nonempty underscore-grouped digit run. Non-ASCII digits and
whitespace are not modelled. -/
def pyInt (s : String) : Option Int :=
  let l := ((s.data.dropWhile isPyWhitespace).reverse.dropWhile isPyWhitespace).reverse
  match l with
  | '+' :: rest => (pyDigitsAux rest 0 true).map Int.ofNat
  | '-' :: rest => (pyDigitsAux rest 0 true).map (fun n => -(Int.ofNat n))
  | _ => (pyDigitsAux l 0 true).map Int.ofNat

/-- Result of `parse_post_id`: the declared behaviour returns an `int`,
but when `int(post_id)` fails the broad `except Exception` handler
swallows the error and the function returns the captured substring, a
`str`. Both outcomes are modelled. -/
inductive PostId
  | int (n : Int)
  | str (s : String)
  deriving DecidableEq, Repr

/-- `parse_post_id`: regex search (raising `InvalidUrlFormat` when
`None.group` yields `AttributeError`), then `int` conversion whose
failure is logged and swallowed, returning the raw captured string. -/
def parse_post_id (url : String) : Except UrlErr PostId :=
  match searchPostCapture url.data with
  | none => .error (.invalidUrl url)
  | some cap =>
    match pyInt (String.mk cap) with
    | some n => .ok (.int n)
    | none => .ok (.str (String.mk cap))

/-- Groups of a whole-list match of `^.*(..)(.)$` (Python `re`, no
DOTALL/MULTILINE: `.` excludes newline). When the list is at least three
characters and newline-free, the greedy match puts the final character in
group 2 and the two characters before it in group 1; returned as
(group2, then the two group-1 characters). -/
def shardGroups (l : List Char) : Option (Char × Char × Char) :=
  if l.all (fun c => c != '\n') then
    match l.reverse with
    | g2 :: g1b :: g1a :: _ => some (g2, g1a, g1b)
    | _ => none
  else none

/-- `re.sub('^.*(..)(.)$', r'\g<2>/\g<1>/' + id, id)` on the character
list of `id`, for identifiers free of backslashes. `^` anchors the single
candidate match at the start; `$` matches at the end or just before one
trailing newline, in which case the newline survives after the replaced
text. Python parses the whole concatenated replacement string — including
the spliced `id` — for template escapes, so a backslash inside `id` is
either expanded as a group backreference (`\1` becomes the two captured
characters) or raises `re.error` (`\c` is a bad escape); this model
splices `id` verbatim and is therefore faithful exactly on backslash-free
identifiers, the domain the sharding theorem restricts to. Every
identifier the repository shards (stringified integers, hex media
hashes) is backslash-free. -/
def shardSub (l : List Char) : List Char :=
  match shardGroups l with
  | some (g2, g1a, g1b) => g2 :: '/' :: g1a :: g1b :: '/' :: l
  | none =>
    match l.reverse with
    | '\n' :: revBody =>
      match shardGroups revBody.reverse with
      | some (g2, g1a, g1b) => g2 :: '/' :: g1a :: g1b :: '/' :: (l ++ ['\n'])
      | none => l
    | _ => l

/-- `_calculate_post_filepath`: identifiers shorter than three characters
pass through; otherwise the regex substitution above builds the shard. -/
def calculate_post_filepath (id : String) : String :=
  if id.length < 3 then id
  else String.mk (shardSub id.data)

/-- Python `str(post_id)` for an integer (decimal, `-` sign). -/
def pyIntStr (n : Int) : String := toString n

/-- `create_post_filepath`: stringify the id, shard it, wrap it in the
post-JSON URL format. -/
def create_post_filepath (post_id : Int) : String :=
  "https://j.nozomi.la/post/" ++ calculate_post_filepath (pyIntStr post_id) ++ ".json"

/-- The `MediaMetaData` record as read by `create_media_filepath`
(forward-declared in the source to avoid an import cycle). -/
structure MediaMetaData where
  dataid : String
  is_video : Bool
  type : String

/-- `create_media_filepath`: pick subdomain and extension from the
`is_video`/`type` decision, shard `dataid`, format the media URL. -/
def create_media_filepath (media : MediaMetaData) : String :=
  let subdomain : String :=
    if media.is_video then "v" else if media.type == "gif" then "g" else "w"
  let url_type : String :=
    if media.is_video then media.type else if media.type == "gif" then "gif" else "webp"
  "https://" ++ subdomain ++ ".nozomi.la/" ++ calculate_post_filepath media.dataid
    ++ "." ++ url_type

/-- `format(ord(c), 'x')`: lowercase hexadecimal, no padding. -/
def hexLower (n : Nat) : String :=
  (Nat.toDigits 16 n).asString

/-- The replacement lambda of `_encode_tag` applied to one character:
characters in `[;/?:@=&]` become `%` followed by their lowercase hex
code; all others pass through. -/
def encodeChar (c : Char) : String :=
  if c == ';' || c == '/' || c == '?' || c == ':' || c == '@' || c == '=' || c == '&'
  then "%" ++ hexLower c.toNat
  else String.mk [c]

/-- `_encode_tag`: `re.sub` with a single-character class is the
characterwise map of `encodeChar`. -/
def encode_tag (sanitized_tag : String) : String :=
  String.join (sanitized_tag.data.map encodeChar)

/-- `create_tag_filepath`: re-validate, encode, format. A failed
validation is re-raised as `InvalidTagFormat` with the fixed
must-be-sanitized message; `_encode_tag` is total so the broad handler
is unreachable. -/
def create_tag_filepath (sanitized_tag : String) : Except TagErr String :=
  match validate_tag_sanitized sanitized_tag with
  | .error _ => .error .notSanitized
  | .ok _ => .ok ("https://j.nozomi.la/nozomi/" ++ encode_tag sanitized_tag ++ ".nozomi")

/-- The character class quantified over by the idempotence property:
lowercase ASCII letters and decimal digits. -/
def isLowerAlnum (c : Char) : Bool :=
  (97 ≤ c.toNat && c.toNat ≤ 122) || (48 ≤ c.toNat && c.toNat ≤ 57)

/-! ### Helper lemmas -/

theorem data_mk (l : List Char) : (String.mk l).data = l := rfl

theorem charToNat_ofNat_of_lt {n : Nat} (h : n < 55296) : (Char.ofNat n).toNat = n := by
  have hv : n.isValidChar := Or.inl h
  rw [Char.ofNat, dif_pos hv]
  rfl

theorem toLower_fixed_of_not_upper {c : Char}
    (h : ¬(65 ≤ c.toNat ∧ c.toNat ≤ 90)) : Char.toLower c = c := by
  unfold Char.toLower
  rw [if_neg (by simpa [ge_iff_le] using h)]

theorem toLower_idem (c : Char) : Char.toLower (Char.toLower c) = Char.toLower c := by
  by_cases h : 65 ≤ c.toNat ∧ c.toNat ≤ 90
  · have h1 : Char.toLower c = Char.ofNat (c.toNat + 32) := by
      unfold Char.toLower
      rw [if_pos (by simpa [ge_iff_le] using h)]
    have h2 : (Char.ofNat (c.toNat + 32)).toNat = c.toNat + 32 :=
      charToNat_ofNat_of_lt (by omega)
    rw [h1]
    exact toLower_fixed_of_not_upper (by omega)
  · rw [toLower_fixed_of_not_upper h, toLower_fixed_of_not_upper h]

theorem mem_of_mem_pyStrip {c : Char} {s : String}
    (h : c ∈ (pyStrip s).data) : c ∈ s.data := by
  unfold pyStrip at h
  rw [data_mk, List.mem_reverse] at h
  have h2 := (List.dropWhile_sublist _).subset h
  rw [List.mem_reverse] at h2
  exact (List.dropWhile_sublist _).subset h2

theorem mem_of_mem_removeSHP {c : Char} {s : String}
    (h : c ∈ (removeSlashHashPercent s).data) : c ∈ s.data := by
  unfold removeSlashHashPercent at h
  rw [data_mk] at h
  exact (List.filter_sublist _).subset h

theorem sanitize_tag_eq (t : String) :
    sanitize_tag t =
      (if (removeSlashHashPercent (pyStrip (pyLower t))).data = [] then
        .error (.emptyTag (removeSlashHashPercent (pyStrip (pyLower t))))
      else if (removeSlashHashPercent (pyStrip (pyLower t))).data.head? = some '-' then
        .error (.invalidStart (removeSlashHashPercent (pyStrip (pyLower t))))
      else .ok (removeSlashHashPercent (pyStrip (pyLower t)))) := by
  unfold sanitize_tag validate_tag_sanitized
  by_cases h1 : (removeSlashHashPercent (pyStrip (pyLower t))).data = []
  · rw [if_pos h1, if_pos h1]
  · rw [if_neg h1, if_neg h1]
    by_cases h2 : (removeSlashHashPercent (pyStrip (pyLower t))).data.head? = some '-'
    · rw [if_pos h2, if_pos h2]
    · rw [if_neg h2, if_neg h2]

/-! ### C1: path sharding -/

/-- C1, the claim as stated is false: the regex group `(..)` takes the two
characters before the last, so `"abcde"` shards to `"e/cd/abcde"`, not
`"e/d/abcde"`. -/
theorem c1_counterexample :
    calculate_post_filepath "abcde" = "e/cd/abcde" ∧
    calculate_post_filepath "abcde" ≠ "e/d/abcde" :=
  ⟨rfl, by decide⟩

/-- C1 (amended): an identifier shorter than three characters is returned
unchanged; an identifier `p ++ [a, b, c]` of length at least three that
contains no newline and no backslash shards to
`<c>/<ab>/<full-original-string>`; in particular `"ab"` shards to `"ab"`
and `"abcde"` to `"e/cd/abcde"`. (A newline blocks or shifts the
`^.*(..)(.)$` match, and a backslash inside the identifier is reparsed by
Python as a replacement-template escape — a group backreference or a
`re.error` — so both are excluded from the sharding rule.) -/
theorem c1_shard_path (id : String) :
    (id.length < 3 → calculate_post_filepath id = id) ∧
    (∀ (p : List Char) (a b c : Char), id.data = p ++ [a, b, c] →
      (∀ x ∈ id.data, x ≠ '\n' ∧ x ≠ '\\') →
      calculate_post_filepath id = String.mk (c :: '/' :: a :: b :: '/' :: id.data)) ∧
    calculate_post_filepath "ab" = "ab" ∧
    calculate_post_filepath "abcde" = "e/cd/abcde" := by
  refine ⟨?_, ?_, rfl, rfl⟩
  · intro h
    unfold calculate_post_filepath
    rw [if_pos h]
  · intro p a b c hdec hnl
    have hlen : ¬ id.length < 3 := by
      have : id.length = id.data.length := rfl
      rw [this, hdec]
      simp
    have hall : id.data.all (fun x => x != '\n') = true := by
      rw [List.all_eq_true]
      intro x hx
      simpa using (hnl x hx).1
    have hgroups : shardGroups id.data = some (c, a, b) := by
      unfold shardGroups
      rw [if_pos hall]
      rw [hdec, List.reverse_append]
      rfl
    unfold calculate_post_filepath
    rw [if_neg hlen]
    unfold shardSub
    rw [hgroups]

/-- Witness for `c1_shard_path` at `"ab"` and `"vwxyz"`. -/
theorem c1_shard_path_witness :
    calculate_post_filepath "ab" = "ab" ∧
    calculate_post_filepath "vwxyz" =
      String.mk ('z' :: '/' :: 'x' :: 'y' :: '/' :: ("vwxyz".data)) :=
  ⟨(c1_shard_path "ab").1 (by decide),
   (c1_shard_path "vwxyz").2.1 ['v', 'w'] 'x' 'y' 'z' (by decide) (by decide)⟩

/-! ### C2: post-JSON path builder -/

/-- C2, the claim as stated is false at post id `123`: the shard of
`"123"` is `"3/12/123"`, so the URL is not `.../post/3/2/123.json`. -/
theorem c2_counterexample :
    create_post_filepath 123 = "https://j.nozomi.la/post/3/12/123.json" ∧
    create_post_filepath 123 ≠ "https://j.nozomi.la/post/3/2/123.json" :=
  ⟨by decide, by decide⟩

/-- C2 (amended): `create_post_filepath` stringifies the id, computes its
shard path and wraps it in `https://j.nozomi.la/post/{shard}.json`; in
particular id `123` yields `https://j.nozomi.la/post/3/12/123.json`. -/
theorem c2_create_post_filepath (post_id : Int) :
    create_post_filepath post_id =
      "https://j.nozomi.la/post/" ++ calculate_post_filepath (pyIntStr post_id) ++ ".json" ∧
    create_post_filepath 123 = "https://j.nozomi.la/post/3/12/123.json" :=
  ⟨rfl, by decide⟩

/-! ### C3: media path builder -/

/-- C3, the claim as stated is false at `{dataid := "abcde",
is_video := false, type := "gif"}`: the shard of `"abcde"` is
`"e/cd/abcde"`, so the URL is not `https://g.nozomi.la/e/d/abcde.gif`. -/
theorem c3_counterexample :
    create_media_filepath ⟨"abcde", false, "gif"⟩ = "https://g.nozomi.la/e/cd/abcde.gif" ∧
    create_media_filepath ⟨"abcde", false, "gif"⟩ ≠ "https://g.nozomi.la/e/d/abcde.gif" :=
  ⟨rfl, by decide⟩

/-- C3 (amended): subdomain/extension follow the `is_video`/`type`
decision table, the shard comes from `dataid`, and the URL is
`https://{subdomain}.nozomi.la/{shard}.{extension}`; in particular
`{dataid := "abcde", is_video := false, type := "gif"}` yields
`https://g.nozomi.la/e/cd/abcde.gif`. -/
theorem c3_create_media_filepath (media : MediaMetaData) :
    (media.is_video = true → create_media_filepath media =
      "https://v.nozomi.la/" ++ calculate_post_filepath media.dataid ++ "." ++ media.type) ∧
    (media.is_video = false → media.type = "gif" → create_media_filepath media =
      "https://g.nozomi.la/" ++ calculate_post_filepath media.dataid ++ ".gif") ∧
    (media.is_video = false → media.type ≠ "gif" → create_media_filepath media =
      "https://w.nozomi.la/" ++ calculate_post_filepath media.dataid ++ ".webp") ∧
    create_media_filepath ⟨"abcde", false, "gif"⟩ = "https://g.nozomi.la/e/cd/abcde.gif" := by
  refine ⟨?_, ?_, ?_, rfl⟩
  · intro h
    unfold create_media_filepath
    rw [h]
    simp
  · intro h ht
    unfold create_media_filepath
    rw [h, ht]
    simp only [Bool.false_eq_true, if_false, beq_self_eq_true, if_true]
    rw [String.append_assoc]
    rfl
  · intro h ht
    unfold create_media_filepath
    rw [h]
    simp only [Bool.false_eq_true, if_false, beq_iff_eq, ht]
    rw [String.append_assoc]
    rfl

/-- Witness for `c3_create_media_filepath` at the gif descriptor. -/
theorem c3_create_media_filepath_witness :
    create_media_filepath ⟨"abcde", false, "gif"⟩ = "https://g.nozomi.la/e/cd/abcde.gif" :=
  (c3_create_media_filepath ⟨"abcde", false, "gif"⟩).2.1 rfl rfl

/-! ### C4: sanitize_tag success state -/

/-- C4, the claim as stated is false: `sanitize_tag "/ a"` succeeds with
`" a"`, which still carries leading whitespace, because the `/#%` removal
runs after the strip and can expose whitespace at the ends. -/
theorem c4_counterexample :
    sanitize_tag "/ a" = Except.ok " a" ∧
    (" a" : String).data.head? = some ' ' ∧
    isPyWhitespace ' ' = true :=
  ⟨rfl, rfl, rfl⟩

/-- C4 (amended): every string `sanitize_tag` successfully returns is
lowercased, free of `/`, `#` and `%`, non-empty and does not start with
`-`; it need not be trimmed. `sanitize_tag " Foo/Bar# "` returns
`"foobar"`. -/
theorem c4_sanitize_ok_sanitized (t s : String) (h : sanitize_tag t = .ok s) :
    pyLower s = s ∧
    (∀ c ∈ s.data, c ≠ '/' ∧ c ≠ '#' ∧ c ≠ '%') ∧
    s ≠ "" ∧
    s.data.head? ≠ some '-' ∧
    sanitize_tag " Foo/Bar# " = .ok "foobar" := by
  rw [sanitize_tag_eq] at h
  by_cases h1 : (removeSlashHashPercent (pyStrip (pyLower t))).data = []
  · rw [if_pos h1] at h
    cases h
  · rw [if_neg h1] at h
    by_cases h2 : (removeSlashHashPercent (pyStrip (pyLower t))).data.head? = some '-'
    · rw [if_pos h2] at h
      cases h
    · rw [if_neg h2] at h
      injection h with hs
      subst hs
      have hmem : ∀ c ∈ (removeSlashHashPercent (pyStrip (pyLower t))).data,
          c ∈ (pyLower t).data := by
        intro c hc
        exact mem_of_mem_pyStrip (mem_of_mem_removeSHP hc)
      refine ⟨?_, ?_, ?_, h2, rfl⟩
      · have hfix : ∀ c ∈ (removeSlashHashPercent (pyStrip (pyLower t))).data,
            Char.toLower c = c := by
          intro c hc
          obtain ⟨d, _, hd⟩ := List.mem_map.mp (hmem c hc)
          rw [← hd]
          exact toLower_idem d
        have hmapid : (removeSlashHashPercent (pyStrip (pyLower t))).data.map Char.toLower
            = (removeSlashHashPercent (pyStrip (pyLower t))).data := by
          rw [show (removeSlashHashPercent (pyStrip (pyLower t))).data.map Char.toLower
              = (removeSlashHashPercent (pyStrip (pyLower t))).data.map id from
            List.map_congr_left hfix, List.map_id]
        have hpl : pyLower (removeSlashHashPercent (pyStrip (pyLower t)))
            = String.mk ((removeSlashHashPercent (pyStrip (pyLower t))).data.map
                Char.toLower) := rfl
        rw [hpl, hmapid]
      · intro c hc
        have hf : c ∈ (pyStrip (pyLower t)).data.filter
            (fun c => !(c == '/' || c == '#' || c == '%')) := hc
        have hp := (List.mem_filter.mp hf).2
        simp only [Bool.not_eq_true', Bool.or_eq_false_iff, beq_eq_false_iff_ne] at hp
        exact ⟨hp.1.1, hp.1.2, hp.2⟩
      · intro hempty
        rw [hempty] at h1
        exact h1 rfl

/-- Witness for `c4_sanitize_ok_sanitized` at `" Foo/Bar# "`. -/
theorem c4_sanitize_ok_sanitized_witness :
    pyLower "foobar" = "foobar" ∧
    (∀ c ∈ ("foobar" : String).data, c ≠ '/' ∧ c ≠ '#' ∧ c ≠ '%') ∧
    ("foobar" : String) ≠ "" ∧
    ("foobar" : String).data.head? ≠ some '-' ∧
    sanitize_tag " Foo/Bar# " = .ok "foobar" :=
  c4_sanitize_ok_sanitized " Foo/Bar# " "foobar" rfl

/-! ### C7: sanitize_tag failure condition -/

/-- C7: `sanitize_tag` raises `InvalidTagFormat` exactly when the result
of lowercasing, stripping and removing `/#%` is empty or begins with
`-`; `sanitize_tag "-abc"` and `sanitize_tag ""` both raise it. -/
theorem c7_sanitize_error_iff (t : String) :
    ((∃ e, sanitize_tag t = .error e) ↔
      ((removeSlashHashPercent (pyStrip (pyLower t))).data = [] ∨
        (removeSlashHashPercent (pyStrip (pyLower t))).data.head? = some '-')) ∧
    sanitize_tag "-abc" = .error (.invalidStart "-abc") ∧
    sanitize_tag "" = .error (.emptyTag "") := by
  refine ⟨?_, rfl, rfl⟩
  rw [sanitize_tag_eq]
  by_cases h1 : (removeSlashHashPercent (pyStrip (pyLower t))).data = []
  · rw [if_pos h1]
    exact ⟨fun _ => Or.inl h1, fun _ => ⟨_, rfl⟩⟩
  · rw [if_neg h1]
    by_cases h2 : (removeSlashHashPercent (pyStrip (pyLower t))).data.head? = some '-'
    · rw [if_pos h2]
      exact ⟨fun _ => Or.inr h2, fun _ => ⟨_, rfl⟩⟩
    · rw [if_neg h2]
      constructor
      · rintro ⟨e, he⟩
        cases he
      · rintro (h | h)
        · exact absurd h h1
        · exact absurd h h2

/-! ### C6: tag encoder -/

/-- C6: the encoder maps each of the seven reserved characters to `%`
followed by its lowercase hex code point and leaves every other character
unchanged; `encode_tag "a;b&c"` is `"a%3bb%26c"`. -/
theorem c6_encode_tag (s : String) :
    encode_tag s = String.join (s.data.map (fun c =>
      if c ∈ [';', '/', '?', ':', '@', '=', '&'] then
        "%" ++ (Nat.toDigits 16 c.toNat).asString
      else String.mk [c])) ∧
    encode_tag "a;b&c" = "a%3bb%26c" := by
  refine ⟨?_, rfl⟩
  unfold encode_tag
  congr 1
  apply List.map_congr_left
  intro c _
  unfold encodeChar hexLower
  by_cases h : c ∈ ([';', '/', '?', ':', '@', '=', '&'] : List Char)
  · have hb : (c == ';' || c == '/' || c == '?' || c == ':'
        || c == '@' || c == '=' || c == '&') = true := by
      simp only [List.mem_cons, List.not_mem_nil, or_false] at h
      rcases h with rfl | rfl | rfl | rfl | rfl | rfl | rfl <;> rfl
    rw [if_pos hb, if_pos h]
  · have hb : ¬((c == ';' || c == '/' || c == '?' || c == ':'
        || c == '@' || c == '=' || c == '&') = true) := by
      simp only [Bool.or_eq_true, beq_iff_eq]
      simp only [List.mem_cons, List.not_mem_nil, or_false] at h
      tauto
    rw [if_neg hb, if_neg h]

/-! ### C8: tag-index path builder -/

/-- C8: `create_tag_filepath` raises `InvalidTagFormat` with the
must-be-sanitized message exactly when the argument is empty or starts
with `-`; otherwise it returns
`https://j.nozomi.la/nozomi/{encoded_tag}.nozomi`; the sanitized tag
`"cat"` maps to `https://j.nozomi.la/nozomi/cat.nozomi`. -/
theorem c8_create_tag_filepath (t : String) :
    ((∃ e, create_tag_filepath t = .error e) ↔ (t.data = [] ∨ t.data.head? = some '-')) ∧
    ((t.data = [] ∨ t.data.head? = some '-') →
      create_tag_filepath t = .error .notSanitized) ∧
    TagErr.notSanitized.message = "Tag must be sanitized before creating a filepath." ∧
    (¬(t.data = [] ∨ t.data.head? = some '-') →
      create_tag_filepath t = .ok ("https://j.nozomi.la/nozomi/" ++ encode_tag t ++ ".nozomi")) ∧
    create_tag_filepath "cat" = .ok "https://j.nozomi.la/nozomi/cat.nozomi" := by
  have hchar : create_tag_filepath t =
      (if t.data = [] then .error .notSanitized
      else if t.data.head? = some '-' then .error .notSanitized
      else .ok ("https://j.nozomi.la/nozomi/" ++ encode_tag t ++ ".nozomi")) := by
    unfold create_tag_filepath validate_tag_sanitized
    by_cases h1 : t.data = []
    · rw [if_pos h1, if_pos h1]
    · rw [if_neg h1, if_neg h1]
      by_cases h2 : t.data.head? = some '-'
      · rw [if_pos h2, if_pos h2]
      · rw [if_neg h2, if_neg h2]
  refine ⟨?_, ?_, rfl, ?_, rfl⟩
  · rw [hchar]
    by_cases h1 : t.data = []
    · rw [if_pos h1]
      exact ⟨fun _ => Or.inl h1, fun _ => ⟨_, rfl⟩⟩
    · rw [if_neg h1]
      by_cases h2 : t.data.head? = some '-'
      · rw [if_pos h2]
        exact ⟨fun _ => Or.inr h2, fun _ => ⟨_, rfl⟩⟩
      · rw [if_neg h2]
        constructor
        · rintro ⟨e, he⟩
          cases he
        · rintro (h | h)
          · exact absurd h h1
          · exact absurd h h2
  · rintro (h | h)
    · rw [hchar, if_pos h]
    · rw [hchar]
      by_cases h1 : t.data = []
      · rw [if_pos h1]
      · rw [if_neg h1, if_pos h]
  · intro h
    rw [hchar, if_neg (fun h1 => h (Or.inl h1)), if_neg (fun h2 => h (Or.inr h2))]

/-- Witness for `c8_create_tag_filepath` at `"-x"` and `"cat"`. -/
theorem c8_create_tag_filepath_witness :
    create_tag_filepath "-x" = .error .notSanitized ∧
    create_tag_filepath "cat" =
      .ok ("https://j.nozomi.la/nozomi/" ++ encode_tag "cat" ++ ".nozomi") :=
  ⟨(c8_create_tag_filepath "-x").2.1 (Or.inr rfl),
   (c8_create_tag_filepath "cat").2.2.2.1 (by decide)⟩

/-! ### C9: idempotence of sanitizing on lowercase alphanumeric tags -/

theorem lowerAlnum_bounds {c : Char} (h : isLowerAlnum c = true) :
    (97 ≤ c.toNat ∧ c.toNat ≤ 122) ∨ (48 ≤ c.toNat ∧ c.toNat ≤ 57) := by
  simpa [isLowerAlnum, Bool.or_eq_true, Bool.and_eq_true, decide_eq_true_eq] using h

theorem isPyWhitespace_eq_false_of_lowerAlnum {c : Char} (h : isLowerAlnum c = true) :
    isPyWhitespace c = false := by
  have hb := lowerAlnum_bounds h
  simp only [isPyWhitespace, Bool.or_eq_false_iff, beq_eq_false_iff_ne]
  refine ⟨⟨⟨⟨⟨?_, ?_⟩, ?_⟩, ?_⟩, ?_⟩, ?_⟩ <;>
    (intro hc; subst hc; revert hb; decide)

theorem removeSHP_keeps_of_lowerAlnum {c : Char} (h : isLowerAlnum c = true) :
    (!(c == '/' || c == '#' || c == '%')) = true := by
  have hb := lowerAlnum_bounds h
  simp only [Bool.not_eq_true', Bool.or_eq_false_iff, beq_eq_false_iff_ne]
  refine ⟨⟨?_, ?_⟩, ?_⟩ <;> (intro hc; subst hc; revert hb; decide)

theorem toLower_fixed_of_lowerAlnum {c : Char} (h : isLowerAlnum c = true) :
    Char.toLower c = c := by
  have hb := lowerAlnum_bounds h
  exact toLower_fixed_of_not_upper (by omega)

theorem dropWhile_eq_self_of_all {p : Char → Bool} {l : List Char}
    (h : ∀ c ∈ l, p c = false) : l.dropWhile p = l := by
  cases l with
  | nil => rfl
  | cons c cs =>
    rw [List.dropWhile_cons, h c (List.mem_cons_self c cs)]
    simp

/-- C9: on tags of lowercase alphanumerics that do not start with `-`,
sanitizing is idempotent. -/
theorem c9_sanitize_idempotent (t : String)
    (h : ∀ c ∈ t.data, isLowerAlnum c = true)
    (hdash : t.data.head? ≠ some '-') :
    (sanitize_tag t >>= sanitize_tag) = sanitize_tag t := by
  have hlow : pyLower t = t := by
    have hfix : ∀ c ∈ t.data, Char.toLower c = c :=
      fun c hc => toLower_fixed_of_lowerAlnum (h c hc)
    have hmap : t.data.map Char.toLower = t.data := by
      rw [show t.data.map Char.toLower = t.data.map id from List.map_congr_left hfix,
        List.map_id]
    unfold pyLower
    rw [hmap]
  have hstrip : pyStrip t = t := by
    have hws : ∀ c ∈ t.data, isPyWhitespace c = false :=
      fun c hc => isPyWhitespace_eq_false_of_lowerAlnum (h c hc)
    unfold pyStrip
    rw [dropWhile_eq_self_of_all hws,
      dropWhile_eq_self_of_all (fun c hc => hws c (List.mem_reverse.mp hc)),
      List.reverse_reverse]
  have hfilter : removeSlashHashPercent t = t := by
    unfold removeSlashHashPercent
    rw [List.filter_eq_self.mpr (fun c hc => removeSHP_keeps_of_lowerAlnum (h c hc))]
  have hX : removeSlashHashPercent (pyStrip (pyLower t)) = t := by
    rw [hlow, hstrip, hfilter]
  by_cases h1 : t.data = []
  · have herr : sanitize_tag t = .error (.emptyTag t) := by
      rw [sanitize_tag_eq, hX, if_pos h1]
    rw [herr]
    rfl
  · have hok : sanitize_tag t = .ok t := by
      rw [sanitize_tag_eq, hX, if_neg h1, if_neg hdash]
    rw [hok]
    show sanitize_tag t = Except.ok t
    exact hok

/-- Witness for `c9_sanitize_idempotent` at `"cat"`. -/
theorem c9_sanitize_idempotent_witness :
    (sanitize_tag "cat" >>= sanitize_tag) = sanitize_tag "cat" :=
  c9_sanitize_idempotent "cat" (by decide) (by decide)

/-! ### C5 and C10: post-id parsing -/

theorem findDotHtml_isSome_iff (l : List Char) :
    (findDotHtml l).isSome = true ↔
      ∃ B C : List Char, l = B ++ ['.', 'h', 't', 'm', 'l'] ++ C := by
  induction l with
  | nil =>
    unfold findDotHtml
    simp only [Option.isSome_none, Bool.false_eq_true, false_iff]
    rintro ⟨B, C, hBC⟩
    cases B <;> simp at hBC
  | cons c rest ih =>
    unfold findDotHtml
    by_cases hp : List.isPrefixOf ['.', 'h', 't', 'm', 'l'] (c :: rest) = true
    · rw [if_pos hp]
      simp only [Option.isSome_some, true_iff]
      obtain ⟨tail, htail⟩ := List.isPrefixOf_iff_prefix.mp hp
      exact ⟨[], tail, by rw [← htail]; rfl⟩
    · rw [if_neg hp]
      cases hfd : findDotHtml rest with
      | some cap =>
        simp only [Option.isSome_some, true_iff]
        have hsome : (findDotHtml rest).isSome = true := by
          rw [hfd]
          rfl
        obtain ⟨B, C, hBC⟩ := ih.mp hsome
        exact ⟨c :: B, C, by rw [hBC]; rfl⟩
      | none =>
        simp only [Option.isSome_none, Bool.false_eq_true, false_iff]
        rintro ⟨B, C, hBC⟩
        have hnone : ¬(findDotHtml rest).isSome = true := by
          rw [hfd]
          simp
        cases B with
        | nil =>
          apply hp
          apply List.isPrefixOf_iff_prefix.mpr
          exact ⟨C, by rw [hBC]; rfl⟩
        | cons b B' =>
          have hcons : c = b ∧ rest = B' ++ ['.', 'h', 't', 'm', 'l'] ++ C := by
            simpa using hBC
          exact hnone (ih.mpr ⟨B', C, hcons.2⟩)

theorem searchPostCapture_isSome_iff (l : List Char) :
    (searchPostCapture l).isSome = true ↔
      ∃ A B C : List Char,
        l = A ++ ['p', 'o', 's', 't', '/'] ++ B ++ ['.', 'h', 't', 'm', 'l'] ++ C := by
  induction l with
  | nil =>
    unfold searchPostCapture
    simp only [Option.isSome_none, Bool.false_eq_true, false_iff]
    rintro ⟨A, B, C, hABC⟩
    cases A <;> simp at hABC
  | cons c rest ih =>
    unfold searchPostCapture
    by_cases hp : List.isPrefixOf ['p', 'o', 's', 't', '/'] (c :: rest) = true
    · rw [if_pos hp]
      obtain ⟨tail, htail⟩ := List.isPrefixOf_iff_prefix.mp hp
      have htl : tail = List.drop 4 rest := by
        have h5 := congrArg (List.drop 5) htail
        simpa using h5
      cases hfd : findDotHtml (List.drop 4 rest) with
      | some cap =>
        simp only [Option.isSome_some, true_iff]
        have hsome : (findDotHtml (List.drop 4 rest)).isSome = true := by
          rw [hfd]
          rfl
        obtain ⟨B, C, hBC⟩ := (findDotHtml_isSome_iff (List.drop 4 rest)).mp hsome
        refine ⟨[], B, C, ?_⟩
        rw [← htail, htl, hBC]
        rfl
      | none =>
        rw [ih]
        have hnoHtml : ∀ B C : List Char,
            List.drop 4 rest ≠ B ++ ['.', 'h', 't', 'm', 'l'] ++ C := by
          intro B C hBC
          have : (findDotHtml (List.drop 4 rest)).isSome = true :=
            (findDotHtml_isSome_iff (List.drop 4 rest)).mpr ⟨B, C, hBC⟩
          rw [hfd] at this
          cases this
        constructor
        · rintro ⟨A, B, C, hABC⟩
          exact ⟨c :: A, B, C, by rw [hABC]; rfl⟩
        · rintro ⟨A, B, C, hABC⟩
          cases A with
          | nil =>
            exfalso
            have hre : c = 'p' ∧
                rest = ['o', 's', 't', '/'] ++ B ++ ['.', 'h', 't', 'm', 'l'] ++ C := by
              simpa using hABC
            apply hnoHtml B C
            rw [hre.2]
            rfl
          | cons a A' =>
            have hcons : c = a ∧
                rest = A' ++ ['p', 'o', 's', 't', '/'] ++ B ++ ['.', 'h', 't', 'm', 'l'] ++ C := by
              simpa using hABC
            exact ⟨A', B, C, hcons.2⟩
    · rw [if_neg hp]
      rw [ih]
      constructor
      · rintro ⟨A, B, C, hABC⟩
        exact ⟨c :: A, B, C, by rw [hABC]; rfl⟩
      · rintro ⟨A, B, C, hABC⟩
        cases A with
        | nil =>
          exfalso
          apply hp
          apply List.isPrefixOf_iff_prefix.mpr
          refine ⟨B ++ ['.', 'h', 't', 'm', 'l'] ++ C, ?_⟩
          rw [hABC]
          rfl
        | cons a A' =>
          have hcons : c = a ∧
              rest = A' ++ ['p', 'o', 's', 't', '/'] ++ B ++ ['.', 'h', 't', 'm', 'l'] ++ C := by
            simpa using hABC
          exact ⟨A', B, C, hcons.2⟩

/-- C5: `parse_post_id` raises `InvalidUrlFormat` exactly when the URL
has no `post/`...`.html` segment; when the non-greedy capture exists and
converts as a Python integer it returns that integer. The two examples
from the spec hold. -/
theorem c5_parse_post_id (url : String) :
    ((∃ e, parse_post_id url = .error e) ↔
      ¬∃ A B C : List Char,
        url.data = A ++ ['p', 'o', 's', 't', '/'] ++ B ++ ['.', 'h', 't', 'm', 'l'] ++ C) ∧
    (∀ (cap : List Char) (n : Int), searchPostCapture url.data = some cap →
      pyInt (String.mk cap) = some n → parse_post_id url = .ok (.int n)) ∧
    parse_post_id "https://nozomi.la/post/123456.html" = .ok (.int 123456) ∧
    parse_post_id "https://nozomi.la/invalid" =
      .error (.invalidUrl "https://nozomi.la/invalid") := by
  refine ⟨?_, ?_, rfl, rfl⟩
  · rw [← searchPostCapture_isSome_iff]
    unfold parse_post_id
    cases hs : searchPostCapture url.data with
    | none =>
      simp only [Option.isSome_none, Bool.false_eq_true, not_false_iff, iff_true]
      exact ⟨_, rfl⟩
    | some cap =>
      simp only [Option.isSome_some, not_true_eq_false, iff_false]
      rintro ⟨e, he⟩
      have he' : (match pyInt (String.mk cap) with
          | some n => Except.ok (PostId.int n)
          | none => Except.ok (PostId.str (String.mk cap))) = Except.error e := he
      cases hpi : pyInt (String.mk cap) with
      | none => rw [hpi] at he'; cases he'
      | some n => rw [hpi] at he'; cases he'
  · intro cap n h1 h2
    unfold parse_post_id
    rw [h1]
    show (match pyInt (String.mk cap) with
      | some n => Except.ok (PostId.int n)
      | none => Except.ok (PostId.str (String.mk cap))) = Except.ok (PostId.int n)
    rw [h2]

/-- Witness for `c5_parse_post_id` at the spec's example URL. -/
theorem c5_parse_post_id_witness :
    parse_post_id "https://nozomi.la/post/123456.html" = .ok (.int 123456) :=
  (c5_parse_post_id "https://nozomi.la/post/123456.html").2.1 ("123456".data) 123456 rfl rfl

/-- C10: when the capture between `post/` and `.html` exists but is not a
valid Python integer literal, the conversion error is swallowed and the
captured substring itself is returned; `.../post/12a.html` yields the
string `"12a"`. -/
theorem c10_parse_nonint (url : String) (cap : List Char)
    (h1 : searchPostCapture url.data = some cap)
    (h2 : pyInt (String.mk cap) = none) :
    parse_post_id url = .ok (.str (String.mk cap)) ∧
    parse_post_id "https://nozomi.la/post/12a.html" = .ok (.str "12a") := by
  constructor
  · unfold parse_post_id
    rw [h1]
    show (match pyInt (String.mk cap) with
      | some n => Except.ok (PostId.int n)
      | none => Except.ok (PostId.str (String.mk cap))) = Except.ok (PostId.str (String.mk cap))
    rw [h2]
  · rfl

/-- Witness for `c10_parse_nonint` at the non-integer capture `"12a"`. -/
theorem c10_parse_nonint_witness :
    parse_post_id "https://nozomi.la/post/12a.html" = .ok (.str (String.mk ("12a".data))) :=
  (c10_parse_nonint "https://nozomi.la/post/12a.html" ("12a".data) rfl rfl).1

end Nozomi
